import Mathlib

/-!
Verification of the roster-evaluation core of the RosteringProblemGA
repository (`src/workers.py`, class `SchedulingProblem`).

The class is embedded shallowly: the static configuration tables set in
`__init__` become top-level constants, a roster (`schedule`) is a
`List Nat` of binary values, the per-worker decomposition is a
`List (List Nat)` in worker-list order (the Python dict is keyed by the
distinct worker names and iterated in insertion order, so a list of
chunks indexed by worker position is an exact model), and each counting
method becomes a `foldl` that mirrors the Python loop.  `getCost` raises
`ValueError` on a size mismatch; it is embedded as `Except String Int`.
-/

set_option maxRecDepth 100000

namespace Workers

/-- The list of workers (`self.workers`). -/
def workers : List String := ["A", "B", "C", "D", "E", "F", "G", "H", "I", "J"]

/-- The workers' shift preferences, morning/evening/night
(`self.shiftPreference`). -/
def shiftPreference : List (List Nat) :=
  [[1, 0, 0], [1, 1, 0], [0, 0, 1], [0, 1, 0], [0, 0, 1],
   [1, 1, 1], [0, 1, 1], [1, 1, 1], [1, 0, 0], [0, 1, 0]]

/-- Minimum workers for each shift type (`self.shiftMin`). -/
def shiftMin : List Nat := [2, 2, 1]

/-- Maximum workers for each shift type (`self.shiftMax`). -/
def shiftMax : List Nat := [3, 4, 2]

/-- Maximum shifts per week per worker (`self.maxShiftsPerWeek`). -/
def maxShiftsPerWeek : Nat := 5

/-- Number of weeks scheduled (`self.weeks`). -/
def weeks : Nat := 1

/-- Shifts per day (`self.shiftPerDay = len(self.shiftMin)`). -/
def shiftPerDay : Nat := shiftMin.length

/-- Shift slots per week (`self.shiftsPerWeek = 7 * self.shiftPerDay`). -/
def shiftsPerWeek : Nat := 7 * shiftPerDay

/-- Total number of shift slots in a schedule (`__len__`):
`len(self.workers) * self.shiftsPerWeek * self.weeks`. -/
def schedLen : Nat := workers.length * shiftsPerWeek * weeks

/-- The problem instance: only `hardConstraintPenalty` is supplied at
construction (`__init__`); everything else is a fixed table. -/
structure SchedulingProblem where
  hardConstraintPenalty : Int

/-- `getWorkerShifts`: cuts the flat schedule into one contiguous chunk per
worker.  Python slices `schedule[shiftIndex : shiftIndex + shiftsPerWorker]`
with `shiftIndex` advancing by `shiftsPerWorker` per worker, which clips at
the end of the list, exactly like `drop`/`take`. -/
def getWorkerShifts (schedule : List Nat) : List (List Nat) :=
  (List.range workers.length).map
    (fun i => (schedule.drop (i * (schedLen / workers.length))).take
      (schedLen / workers.length))

/-- `countConsecutiveShiftViolations`: for each worker, walk
`zip(workerShifts, workerShifts[1:])` and count the pairs that are both 1. -/
def countConsecutiveShiftViolations (d : List (List Nat)) : Nat :=
  d.foldl
    (fun violations workerShifts =>
      (workerShifts.zip workerShifts.tail).foldl
        (fun v p => if p.1 = 1 ∧ p.2 = 1 then v + 1 else v) violations)
    0

/-- `countShiftsPerWeekViolations`: for each worker and each week window
`workerShifts[i : i + shiftsPerWeek]` (with `i` ranging over
`range(0, weeks * shiftsPerWeek, shiftsPerWeek)`), append the window sum to
the list and add the excess over `maxShiftsPerWeek` to the violation count. -/
def countShiftsPerWeekViolations (d : List (List Nat)) : List Nat × Nat :=
  d.foldl
    (fun acc workerShifts =>
      (List.range weeks).foldl
        (fun acc2 k =>
          let weeklyShifts := ((workerShifts.drop (k * shiftsPerWeek)).take
            shiftsPerWeek).sum
          (acc2.1 ++ [weeklyShifts],
            if weeklyShifts > maxShiftsPerWeek then
              acc2.2 + (weeklyShifts - maxShiftsPerWeek)
            else acc2.2))
        acc)
    ([], 0)

/-- The length of `zip(*d)` in Python: the minimum chunk length (0 when
there are no chunks at all). -/
def zipLen : List (List Nat) → Nat
  | [] => 0
  | xs :: rest => rest.foldl (fun m ys => min m ys.length) xs.length

/-- The per-slot totals `[sum(shift) for shift in zip(*workersShiftsDict.values())]`:
for each slot index below every chunk length, the sum of that column. -/
def totalPerShiftList (d : List (List Nat)) : List Nat :=
  (List.range (zipLen d)).map (fun i => (d.map (fun ws => ws.getD i 0)).sum)

/-- `countWorkersPerShiftViolations`: per-slot totals, then per slot compare
against the bounds for shift type `shiftIndex % shiftPerDay`. -/
def countWorkersPerShiftViolations (d : List (List Nat)) : List Nat × Nat :=
  let totals := totalPerShiftList d
  (totals,
    totals.enum.foldl
      (fun violations p =>
        let dailyShiftIndex := p.1 % shiftPerDay
        if p.2 > shiftMax.getD dailyShiftIndex 0 then
          violations + (p.2 - shiftMax.getD dailyShiftIndex 0)
        else if p.2 < shiftMin.getD dailyShiftIndex 0 then
          violations + (shiftMin.getD dailyShiftIndex 0 - p.2)
        else violations)
      0)

/-- `countShiftPreferenceViolations`: for each worker, tile the 3-element
preference `shiftsPerWeek // shiftPerDay` times and count positions where the
tiled preference is 0 while the worker is scheduled.  The Python dict lookup
`workersShiftsDict[self.workers[workerIndex]]` is the chunk at the worker's
index, since the dict is keyed by the distinct workers in order. -/
def countShiftPreferenceViolations (d : List (List Nat)) : Nat :=
  shiftPreference.enum.foldl
    (fun violations p =>
      let preference := (List.replicate (shiftsPerWeek / shiftPerDay) p.2).flatten
      let shifts := d.getD p.1 []
      (preference.zip shifts).foldl
        (fun v q => if q.1 = 0 ∧ q.2 = 1 then v + 1 else v) violations)
    0

/-- The Python slice `workerShifts[2:30:3]`: the elements at indices
2, 5, 8, …, 29 that exist. -/
def nightSlice (workerShifts : List Nat) : List Nat :=
  ((List.range 10).map (fun k => 3 * k + 2)).filterMap workerShifts.get?

/-- `countCompetenceViolations`: for each worker with index `> 4`, count the
1-entries of `workerShifts[2:30:3]`. -/
def countCompetenceViolations (d : List (List Nat)) : Nat :=
  d.enum.foldl
    (fun violations p =>
      let nightShifts := nightSlice p.2
      if p.1 > 4 then
        nightShifts.foldl (fun v s => if s = 1 then v + 1 else v) violations
      else violations)
    0

/-- `getCost`: validates the size, decomposes, counts all five violation
categories and returns `hardConstraintPenalty * hard + soft`. -/
def getCost (p : SchedulingProblem) (schedule : List Nat) : Except String Int :=
  if schedule.length ≠ schedLen then
    Except.error "size of schedule list should be equal to the problem length"
  else
    let workersShiftsDict := getWorkerShifts schedule
    let consecutiveShiftViolations := countConsecutiveShiftViolations workersShiftsDict
    let shiftsPerWeekViolations := (countShiftsPerWeekViolations workersShiftsDict).2
    let workersPerShiftViolations := (countWorkersPerShiftViolations workersShiftsDict).2
    let shiftPreferenceViolations := countShiftPreferenceViolations workersShiftsDict
    let competenceViolations := countCompetenceViolations workersShiftsDict
    let hardConstraintViolations := consecutiveShiftViolations +
      workersPerShiftViolations + shiftsPerWeekViolations + competenceViolations
    let softConstraintViolations := shiftPreferenceViolations
    Except.ok (p.hardConstraintPenalty * hardConstraintViolations +
      softConstraintViolations)

/-! ### Specification-side definitions

These definitions follow the wording of the specification and of the claims
(positional formulations over slot indices); the theorems below compare them
with the embedded source functions. -/

/-- The total of the four hard-constraint counters on the decomposition of a
schedule, in the order the source adds them. -/
def hardTotal (schedule : List Nat) : Nat :=
  countConsecutiveShiftViolations (getWorkerShifts schedule) +
    (countWorkersPerShiftViolations (getWorkerShifts schedule)).2 +
    (countShiftsPerWeekViolations (getWorkerShifts schedule)).2 +
    countCompetenceViolations (getWorkerShifts schedule)

/-- The soft-constraint counter on the decomposition of a schedule. -/
def softTotal (schedule : List Nat) : Nat :=
  countShiftPreferenceViolations (getWorkerShifts schedule)

/-- Spec wording for the number of adjacent index pairs `(k, k+1)` of a
worker's sub-sequence where both values equal 1; every adjacency of the flat
per-worker array counts, with no special handling at day or week boundaries. -/
def adjacentBothOnes (ws : List Nat) : Nat :=
  ((List.range (ws.length - 1)).filter
    (fun k => decide (ws.getD k 0 = 1 ∧ ws.getD (k + 1) 0 = 1))).length

/-- Spec wording for the per-worker-per-week totals: for each worker, in
order, the sum of each non-overlapping window of `shiftsPerWeek` consecutive
positions. -/
def weeklyTotals (d : List (List Nat)) : List Nat :=
  d.flatMap (fun ws => (List.range weeks).map
    (fun k => ((ws.drop (k * shiftsPerWeek)).take shiftsPerWeek).sum))

/-- Spec wording for the penalty a slot contributes: the slot's shift type is
`i % shiftPerDay`, and the contribution is the excess over `shiftMax` or the
shortfall below `shiftMin`, otherwise nothing. -/
def slotPenalty (i n : Nat) : Nat :=
  if shiftMax.getD (i % shiftPerDay) 0 < n then n - shiftMax.getD (i % shiftPerDay) 0
  else if n < shiftMin.getD (i % shiftPerDay) 0 then shiftMin.getD (i % shiftPerDay) 0 - n
  else 0

/-- Days covered by the scheduling period (`7 * weeks`). -/
def daysInPeriod : Nat := 7 * weeks

/-- Spec wording for the preference mask: the worker's 3-element preference
vector tiled once per day across the period. -/
def tiledMask (pref : List Nat) : List Nat :=
  (List.replicate daysInPeriod pref).flatten

/-- Spec wording for the preference violations: for each worker, the number
of positions where the tiled preference is 0 while the worker is
scheduled (1). -/
def prefViolationsSpec (d : List (List Nat)) : Nat :=
  (shiftPreference.enum.map (fun q =>
    ((List.range (min (tiledMask q.2).length ((d.getD q.1 []).length))).filter
      (fun k => decide ((tiledMask q.2).getD k 0 = 0 ∧
        (d.getD q.1 []).getD k 0 = 1))).length)).sum

/-- Spec wording for one worker's competence count: the scheduled (1) entries
among the night-shift slots, every 3rd position starting at offset 2 up to a
fixed 10-slot window (positions 2, 5, …, 29), clipped to the slots that
exist. -/
def nightOnesSpec (ws : List Nat) : Nat :=
  (((List.range 10).map (fun k => 3 * k + 2)).filter
    (fun i => decide (ws.getD i 0 = 1))).length

/-- Spec wording for the competence violations: only workers at 0-indexed
position 5 or later contribute, each its `nightOnesSpec` count. -/
def competenceSpec (d : List (List Nat)) : Nat :=
  (d.enum.map (fun q => if 5 ≤ q.1 then nightOnesSpec q.2 else 0)).sum

/-! ### Concrete example schedules used by the claims -/

/-- The all-zero roster of the configured length (210 slots). -/
def zeroSchedule : List Nat := List.replicate 210 0

/-- One week of night shifts only: 1 at positions 2, 5, …, 20 of a 21-slot
worker sub-sequence. -/
def nightWeekPattern : List Nat :=
  (List.range 21).map (fun i => if i % 3 = 2 then 1 else 0)

/-- A roster where worker index 5 ("F") works every night shift of week 1 and
nothing else is scheduled. -/
def nightWeekSchedF : List Nat :=
  List.replicate 105 0 ++ nightWeekPattern ++ List.replicate 84 0

/-- A roster where worker index 0 ("A") works every night shift of week 1 and
nothing else is scheduled. -/
def nightWeekSchedA : List Nat :=
  nightWeekPattern ++ List.replicate 189 0

/-- One week of evening shifts only: 1 at positions 1, 4, …, 19 of a 21-slot
worker sub-sequence. -/
def eveningWeekPattern : List Nat :=
  (List.range 21).map (fun i => if i % 3 = 1 then 1 else 0)

/-- A roster where worker index 0 ("A", preference [1,0,0]) works every
evening shift and nothing else is scheduled. -/
def eveningSchedA : List Nat :=
  eveningWeekPattern ++ List.replicate 189 0

/-! ### Generic helper lemmas about the loop shapes of the source -/

/-- A left fold whose step adds `f x` to the accumulator sums `f` over the
list. -/
theorem foldl_add_hom {α : Type} (step : Nat → α → Nat) (f : α → Nat)
    (hstep : ∀ a x, step a x = a + f x) :
    ∀ (l : List α) (n : Nat), l.foldl step n = n + (l.map f).sum := by
  intro l
  induction l with
  | nil => intro n; simp
  | cons x t ih =>
    intro n
    rw [List.foldl_cons, hstep, ih, List.map_cons, List.sum_cons, Nat.add_assoc]

/-- A left fold whose step adds 1 exactly when `p` holds counts the elements
satisfying `p`. -/
theorem foldl_count_hom {α : Type} (step : Nat → α → Nat) (p : α → Prop)
    [DecidablePred p]
    (hstep : ∀ a x, step a x = if p x then a + 1 else a) :
    ∀ (l : List α) (n : Nat),
      l.foldl step n = n + (l.filter (fun x => decide (p x))).length := by
  intro l
  induction l with
  | nil => intro n; simp
  | cons x t ih =>
    intro n
    rw [List.foldl_cons, hstep, List.filter_cons]
    by_cases hx : p x
    · rw [if_pos hx, ih]
      simp [hx]
      omega
    · rw [if_neg hx, ih]
      simp [hx]

/-- A left fold on a pair accumulator that appends `g x` to the list part and
adds `h x` to the numeric part. -/
theorem foldl_pair_hom {α : Type} (step : List Nat × Nat → α → List Nat × Nat)
    (g h : α → Nat)
    (hstep : ∀ acc x, step acc x = (acc.1 ++ [g x], acc.2 + h x)) :
    ∀ (l : List α) (acc : List Nat × Nat),
      l.foldl step acc = (acc.1 ++ l.map g, acc.2 + (l.map h).sum) := by
  intro l
  induction l with
  | nil => intro acc; simp
  | cons x t ih =>
    intro acc
    rw [List.foldl_cons, hstep, ih]
    simp [Nat.add_assoc]

/-- Summing a function that vanishes outside `p` equals summing it over the
filtered list. -/
theorem sum_map_ite {α : Type} (f : α → Nat) (p : α → Prop) [DecidablePred p] :
    ∀ l : List α,
      (l.map (fun x => if p x then f x else 0)).sum
        = ((l.filter (fun x => decide (p x))).map f).sum := by
  intro l
  induction l with
  | nil => rfl
  | cons x t ih =>
    rw [List.map_cons, List.sum_cons, List.filter_cons]
    by_cases hx : p x
    · simp only [hx, if_true, decide_eq_true_eq]
      rw [List.map_cons, List.sum_cons, ih]
    · simp only [hx, if_false]
      rw [if_neg (by simp [hx]), ih, Nat.zero_add]

/-- Flat-mapping singletons is mapping. -/
theorem flatMap_singleton_map {α β : Type} (f : α → β) :
    ∀ l : List α, (l.flatMap fun x => [f x]) = l.map f := by
  intro l
  induction l with
  | nil => rfl
  | cons x t ih => simp [ih]

/-- Zipping two lists is indexing both by the positions below the shorter
length. -/
theorem zip_eq_range_map (xs ys : List Nat) :
    xs.zip ys = (List.range (min xs.length ys.length)).map
      (fun k => (xs.getD k 0, ys.getD k 0)) := by
  induction xs generalizing ys with
  | nil => simp
  | cons a t ih =>
    cases ys with
    | nil => simp
    | cons b u =>
      rw [List.zip_cons_cons, ih u]
      have hmin : min (a :: t).length (b :: u).length = min t.length u.length + 1 := by
        simp [Nat.succ_min_succ]
      rw [hmin, List.range_succ_eq_map, List.map_cons, List.map_map]
      simp [Function.comp_def]

/-- Counting the zipped pairs satisfying `q` is counting the index positions
below both lengths whose component pair satisfies `q`. -/
theorem zip_filter_length (q : Nat × Nat → Bool) (xs ys : List Nat) :
    ((xs.zip ys).filter q).length
      = ((List.range (min xs.length ys.length)).filter
          (fun k => q (xs.getD k 0, ys.getD k 0))).length := by
  rw [zip_eq_range_map, List.filter_map, List.length_map]
  rfl

/-- `getD` on the tail reads one position further in the original list. -/
theorem getD_tail (ws : List Nat) (k : Nat) :
    ws.tail.getD k 0 = ws.getD (k + 1) 0 := by
  cases ws with
  | nil => rfl
  | cons a t => rfl

/-- Counting the 1-entries of a Python extended slice (`filterMap` over the
index list) is counting the indices whose `getD` entry is 1. -/
theorem filterMap_ones (ws : List Nat) :
    ∀ idxs : List Nat,
      ((idxs.filterMap ws.get?).filter (fun s => decide (s = 1))).length
        = (idxs.filter (fun i => decide (ws.getD i 0 = 1))).length := by
  intro idxs
  induction idxs with
  | nil => rfl
  | cons i t ih =>
    rw [List.filterMap_cons]
    cases hi : ws.get? i with
    | none =>
      have hd : ws.getD i 0 = 0 := by
        rw [List.getD_eq_getD_get?, hi]
        rfl
      rw [List.filter_cons]
      simp only [hd]
      rw [if_neg (by simp), ih]
    | some v =>
      have hd : ws.getD i 0 = v := by
        rw [List.getD_eq_getD_get?, hi]
        rfl
      rw [List.filter_cons, List.filter_cons]
      simp only [hd]
      by_cases hv : v = 1
      · rw [if_pos (by simpa using hv), if_pos (by simpa using hv)]
        simp [ih]
      · rw [if_neg (by simpa using hv), if_neg (by simpa using hv), ih]

/-- Folding `min` over lists that all have length `n`, starting from `n`,
stays at `n`. -/
theorem foldl_min_const (n : Nat) :
    ∀ rest : List (List Nat), (∀ ws ∈ rest, ws.length = n) →
      rest.foldl (fun m ys => min m ys.length) n = n := by
  intro rest
  induction rest with
  | nil => intro _; rfl
  | cons ys t ih =>
    intro h
    rw [List.foldl_cons, h ys (by simp), min_self]
    exact ih (fun ws hws => h ws (by simp [hws]))

/-- On a nonempty family of equal-length chunks, the Python `zip(*d)` length
is that common length. -/
theorem zipLen_eq (d : List (List Nat)) (n : Nat) (hne : d ≠ [])
    (h : ∀ ws ∈ d, ws.length = n) : zipLen d = n := by
  cases d with
  | nil => exact absurd rfl hne
  | cons xs rest =>
    show rest.foldl (fun m ys => min m ys.length) xs.length = n
    rw [h xs (by simp)]
    exact foldl_min_const n rest (fun ws hws => h ws (by simp [hws]))

/-! ### Bridge lemmas: each counter's loop as a sum over the decomposition -/

/-- The consecutive-shift counter sums, per worker, the zipped adjacent pairs
that are both 1. -/
theorem countConsecutive_eq (d : List (List Nat)) :
    countConsecutiveShiftViolations d
      = (d.map (fun ws => ((ws.zip ws.tail).filter
          (fun q => decide (q.1 = 1 ∧ q.2 = 1))).length)).sum := by
  rw [countConsecutiveShiftViolations,
    foldl_add_hom _
      (fun ws => ((ws.zip ws.tail).filter
        (fun q => decide (q.1 = 1 ∧ q.2 = 1))).length)
      (fun a ws => foldl_count_hom _ (fun q : Nat × Nat => q.1 = 1 ∧ q.2 = 1)
        (fun _ _ => rfl) _ a) d 0,
    Nat.zero_add]

/-- Per worker, the zipped adjacent-pair count is the positional
`adjacentBothOnes` count. -/
theorem pair_count_eq (ws : List Nat) :
    ((ws.zip ws.tail).filter (fun q => decide (q.1 = 1 ∧ q.2 = 1))).length
      = adjacentBothOnes ws := by
  rw [zip_filter_length, List.length_tail, adjacentBothOnes,
    min_eq_right (Nat.sub_le _ _)]
  simp only [getD_tail]

/-- The weekly counter returns the per-worker window sums and the sum of the
capped excesses (with the configured single week, one window per worker). -/
theorem countShiftsPerWeek_eq (d : List (List Nat)) :
    countShiftsPerWeekViolations d
      = (d.map (fun ws => (ws.take shiftsPerWeek).sum),
         ((d.map (fun ws => (ws.take shiftsPerWeek).sum)).map
            (fun t => if maxShiftsPerWeek < t then t - maxShiftsPerWeek
              else 0)).sum) := by
  rw [countShiftsPerWeekViolations,
    foldl_pair_hom _
      (fun ws => (ws.take shiftsPerWeek).sum)
      (fun ws => if maxShiftsPerWeek < (ws.take shiftsPerWeek).sum
        then (ws.take shiftsPerWeek).sum - maxShiftsPerWeek else 0)
      ?hstep d ([], 0), List.map_map]
  · simp [Function.comp_def]
  case hstep =>
    intro acc ws
    rw [show List.range weeks = [0] from rfl, List.foldl_cons, List.foldl_nil]
    simp only [Nat.zero_mul, List.drop_zero]
    by_cases hw : maxShiftsPerWeek < (ws.take shiftsPerWeek).sum
    · rw [if_pos hw, if_pos hw]
    · rw [if_neg hw, if_neg hw, Nat.add_zero]

/-- The staffing counter keeps the per-slot totals and sums the per-slot
penalties. -/
theorem countWorkersPerShift_eq (d : List (List Nat)) :
    countWorkersPerShiftViolations d
      = (totalPerShiftList d,
         ((totalPerShiftList d).enum.map (fun q => slotPenalty q.1 q.2)).sum) := by
  rw [countWorkersPerShiftViolations]
  refine congrArg (Prod.mk (totalPerShiftList d)) ?_
  rw [foldl_add_hom _ (fun q => slotPenalty q.1 q.2) ?hstep, Nat.zero_add]
  case hstep =>
    intro a q
    simp only [slotPenalty]
    by_cases h1 : shiftMax.getD (q.1 % shiftPerDay) 0 < q.2
    · rw [if_pos h1, if_pos h1]
    · rw [if_neg h1, if_neg h1]
      by_cases h2 : q.2 < shiftMin.getD (q.1 % shiftPerDay) 0
      · rw [if_pos h2, if_pos h2]
      · rw [if_neg h2, if_neg h2, Nat.add_zero]

/-- The preference counter sums, per worker, the zipped (tiled preference,
shift) pairs that read (0, 1). -/
theorem countShiftPreference_eq (d : List (List Nat)) :
    countShiftPreferenceViolations d
      = (shiftPreference.enum.map (fun q =>
          ((((List.replicate (shiftsPerWeek / shiftPerDay) q.2).flatten).zip
              (d.getD q.1 [])).filter
            (fun r => decide (r.1 = 0 ∧ r.2 = 1))).length)).sum := by
  rw [countShiftPreferenceViolations, foldl_add_hom _ _ ?hstep, Nat.zero_add]
  case hstep =>
    intro a q
    exact foldl_count_hom _ (fun r : Nat × Nat => r.1 = 0 ∧ r.2 = 1)
      (fun _ _ => rfl) _ a

/-- The competence counter sums, per worker index above 4, the 1-entries of
the night-slot slice. -/
theorem countCompetence_eq (d : List (List Nat)) :
    countCompetenceViolations d
      = (d.enum.map (fun q => if 4 < q.1
          then ((nightSlice q.2).filter (fun s => decide (s = 1))).length
          else 0)).sum := by
  rw [countCompetenceViolations, foldl_add_hom _ _ ?hstep, Nat.zero_add]
  case hstep =>
    intro a q
    by_cases hq : 4 < q.1
    · rw [if_pos hq, if_pos hq]
      exact foldl_count_hom _ (fun s : Nat => s = 1) (fun _ _ => rfl) _ a
    · rw [if_neg hq, if_neg hq, Nat.add_zero]

/-- On a schedule of the configured length, `getCost` returns the weighted
total of the hard violations plus the soft violations. -/
theorem cost_formula (p : SchedulingProblem) (s : List Nat)
    (h : s.length = schedLen) :
    getCost p s
      = Except.ok (p.hardConstraintPenalty * ↑(hardTotal s) + ↑(softTotal s)) := by
  rw [getCost, if_neg (fun hc => hc h)]
  rfl

/-! ### Claim theorems -/

/-- C1: for every roster of length exactly `schedLen` with binary values,
`getCost` returns `hardConstraintPenalty × (consecutiveShiftViolations +
workersPerShiftViolations + shiftsPerWeekViolations + competenceViolations) +
shiftPreferenceViolations`, each counter taken on the decomposition of the
roster. -/
theorem spec_c1_cost_aggregation (p : SchedulingProblem) (s : List Nat)
    (hlen : s.length = schedLen) (_hbin : ∀ x ∈ s, x = 0 ∨ x = 1) :
    getCost p s = Except.ok
      (p.hardConstraintPenalty *
        (↑(countConsecutiveShiftViolations (getWorkerShifts s)) +
          ↑((countWorkersPerShiftViolations (getWorkerShifts s)).2) +
          ↑((countShiftsPerWeekViolations (getWorkerShifts s)).2) +
          ↑(countCompetenceViolations (getWorkerShifts s))) +
        ↑(countShiftPreferenceViolations (getWorkerShifts s))) := by
  rw [cost_formula p s hlen, hardTotal, softTotal]
  push_cast
  ring_nf

/-- Witness for C1 at the all-zero roster with penalty 10. -/
theorem spec_c1_witness :
    getCost ⟨10⟩ zeroSchedule = Except.ok
      ((SchedulingProblem.mk 10).hardConstraintPenalty *
        (↑(countConsecutiveShiftViolations (getWorkerShifts zeroSchedule)) +
          ↑((countWorkersPerShiftViolations (getWorkerShifts zeroSchedule)).2) +
          ↑((countShiftsPerWeekViolations (getWorkerShifts zeroSchedule)).2) +
          ↑(countCompetenceViolations (getWorkerShifts zeroSchedule))) +
        ↑(countShiftPreferenceViolations (getWorkerShifts zeroSchedule))) :=
  spec_c1_cost_aggregation ⟨10⟩ zeroSchedule (by decide) (by decide)

/-- C2: for every roster whose length differs from `schedLen`, `getCost`
fails immediately with the size error, with no partial result: the error is
the sole outcome of the call. -/
theorem spec_c2_invalid_size (p : SchedulingProblem) (s : List Nat)
    (h : s.length ≠ schedLen) :
    getCost p s
      = Except.error "size of schedule list should be equal to the problem length" := by
  rw [getCost, if_pos h]

/-- Witness for C2 at lengths 209 and 211. -/
theorem spec_c2_witness :
    getCost ⟨10⟩ (List.replicate 209 0)
        = Except.error "size of schedule list should be equal to the problem length" ∧
    getCost ⟨10⟩ (List.replicate 211 0)
        = Except.error "size of schedule list should be equal to the problem length" :=
  ⟨spec_c2_invalid_size ⟨10⟩ (List.replicate 209 0) (by decide),
    spec_c2_invalid_size ⟨10⟩ (List.replicate 211 0) (by decide)⟩

/-- C3: the competence counter counts, for each worker at 0-indexed position
≥ 5 and for no other worker, the scheduled entries among the night slots at
positions 2, 5, …, 29 of that worker's sub-sequence (clipped to the slots
that exist), independently of the number of weeks; a worker at index 5
scheduled on all 7 nights of week 1 contributes exactly 7, and the same
pattern at index 0 contributes 0. -/
theorem spec_c3_competence_window :
    (∀ d : List (List Nat), countCompetenceViolations d = competenceSpec d) ∧
    countCompetenceViolations (getWorkerShifts nightWeekSchedF) = 7 ∧
    countCompetenceViolations (getWorkerShifts nightWeekSchedA) = 0 := by
  refine ⟨fun d => ?_, by decide, by decide⟩
  rw [countCompetence_eq, competenceSpec]
  congr 1
  congr 1
  funext q
  by_cases hq : 4 < q.1
  · have hq5 : 5 ≤ q.1 := hq
    rw [if_pos hq, if_pos hq5, nightSlice, nightOnesSpec]
    exact filterMap_ones q.2 _
  · rw [if_neg hq, if_neg (fun h5 : 5 ≤ q.1 => hq h5)]

/-- C4 counterexample: on a roster of length 209 (≠ `schedLen`),
`getWorkerShifts` does not fail — it returns ten chunks, the last one short.
The source function performs no size check, so the claim that decompose
itself fails with the size error is false. -/
theorem spec_c4_counterexample :
    (getWorkerShifts (List.replicate 209 0)).map List.length
      = [21, 21, 21, 21, 21, 21, 21, 21, 21, 20] := by decide

/-- C4 amended: `getWorkerShifts` itself performs no size validation (the
`InvalidSizeError` check lives in `getCost`, which raises before decomposing);
when the roster length equals `schedLen`, decompose partitions it into
`len(workers)` equal contiguous chunks in worker order, each of length
`schedLen / len(workers)`. -/
theorem spec_c4_amended (p : SchedulingProblem) (s : List Nat) :
    (s.length ≠ schedLen →
      getCost p s
        = Except.error "size of schedule list should be equal to the problem length") ∧
    (s.length = schedLen →
      (getWorkerShifts s).length = workers.length ∧
      ∀ i, i < workers.length →
        (getWorkerShifts s).getD i []
            = (s.drop (i * (schedLen / workers.length))).take
                (schedLen / workers.length) ∧
        ((getWorkerShifts s).getD i []).length = schedLen / workers.length) := by
  constructor
  · intro h
    rw [getCost, if_pos h]
  · intro h
    constructor
    · rw [getWorkerShifts, List.length_map, List.length_range]
    · intro i hi
      have hb : i < ((List.range workers.length).map
          (fun i => (s.drop (i * (schedLen / workers.length))).take
            (schedLen / workers.length))).length := by
        rw [List.length_map, List.length_range]
        exact hi
      have hchunk : (getWorkerShifts s).getD i []
          = (s.drop (i * (schedLen / workers.length))).take
              (schedLen / workers.length) := by
        rw [getWorkerShifts, List.getD_eq_getElem _ _ hb, List.getElem_map,
          List.getElem_range]
      refine ⟨hchunk, ?_⟩
      rw [hchunk, List.length_take, List.length_drop, h]
      have h21 : schedLen / workers.length = 21 := rfl
      have h210 : schedLen = 210 := rfl
      have h10 : workers.length = 10 := rfl
      rw [h21, h210]
      rw [h10] at hi
      rw [min_eq_left (by omega)]

/-- Witness for C4 at the all-zero roster of the correct length. -/
theorem spec_c4_witness :
    ((getWorkerShifts zeroSchedule).getD 0 []).length
      = schedLen / workers.length :=
  (((spec_c4_amended ⟨10⟩ zeroSchedule).2 (by decide)).2 0 (by decide)).2

/-- C5: the consecutive-shift counter totals, over all workers, the adjacent
index pairs `(k, k+1)` of the entire per-worker sub-sequence where both
values equal 1, with day and week boundaries treated like any other
adjacency. -/
theorem spec_c5_flat_adjacency (d : List (List Nat)) :
    countConsecutiveShiftViolations d = (d.map adjacentBothOnes).sum := by
  rw [countConsecutive_eq]
  congr 1
  congr 1
  funext ws
  exact pair_count_eq ws

/-- C6: the staffing counter totals each slot over all workers, classifies
the slot as `index % shiftPerDay`, and adds the excess over `shiftMax` or the
shortfall below `shiftMin`; on the all-zero roster it equals the sum of
`shiftMin` over all slots, 35, while the other four counters are 0. -/
theorem spec_c6_workers_per_shift :
    (∀ d : List (List Nat),
        countWorkersPerShiftViolations d
          = (totalPerShiftList d,
             ((totalPerShiftList d).enum.map (fun q => slotPenalty q.1 q.2)).sum)) ∧
    (∀ (d : List (List Nat)) (n : Nat), d ≠ [] → (∀ ws ∈ d, ws.length = n) →
        totalPerShiftList d
          = (List.range n).map (fun i => (d.map (fun ws => ws.getD i 0)).sum)) ∧
    (countWorkersPerShiftViolations (getWorkerShifts zeroSchedule)).2 = 35 ∧
    ((List.range 21).map (fun i => shiftMin.getD (i % shiftPerDay) 0)).sum = 35 ∧
    countConsecutiveShiftViolations (getWorkerShifts zeroSchedule) = 0 ∧
    (countShiftsPerWeekViolations (getWorkerShifts zeroSchedule)).2 = 0 ∧
    countShiftPreferenceViolations (getWorkerShifts zeroSchedule) = 0 ∧
    countCompetenceViolations (getWorkerShifts zeroSchedule) = 0 := by
  refine ⟨countWorkersPerShift_eq, fun d n hne h => ?_,
    by decide, by decide, by decide, by decide, by decide, by decide⟩
  rw [totalPerShiftList, zipLen_eq d n hne h]

/-- Witness for C6 at the decomposition of the all-zero roster. -/
theorem spec_c6_witness :
    totalPerShiftList (getWorkerShifts zeroSchedule)
      = (List.range 21).map
          (fun i => ((getWorkerShifts zeroSchedule).map (fun ws => ws.getD i 0)).sum) :=
  spec_c6_workers_per_shift.2.1 (getWorkerShifts zeroSchedule) 21
    (by decide) (by decide)

/-- C7: the weekly counter returns the list of per-worker-per-week totals
(non-overlapping `shiftsPerWeek` windows in worker order) together with the
sum, over the windows exceeding `maxShiftsPerWeek`, of the excess —
magnitude-weighted, not a flat per-week penalty. -/
theorem spec_c7_weekly_cap (d : List (List Nat)) :
    countShiftsPerWeekViolations d
      = (weeklyTotals d,
         (((weeklyTotals d).filter (fun t => decide (maxShiftsPerWeek < t))).map
            (fun t => t - maxShiftsPerWeek)).sum) := by
  have hw : weeklyTotals d = d.map (fun ws => (ws.take shiftsPerWeek).sum) := by
    rw [weeklyTotals, show List.range weeks = [0] from rfl]
    simp only [List.map_cons, List.map_nil, Nat.zero_mul, List.drop_zero]
    exact flatMap_singleton_map _ d
  rw [countShiftsPerWeek_eq, hw,
    sum_map_ite (fun t => t - maxShiftsPerWeek) (fun t => maxShiftsPerWeek < t)]

/-- C8: the preference counter tiles each worker's 3-element preference once
per day across the period and counts exactly the positions where the tiled
preference is 0 while the worker is scheduled; worker A (preference
`[1,0,0]`) scheduled on every evening slot of the week contributes exactly
7. -/
theorem spec_c8_preference_tiling :
    (∀ d : List (List Nat), countShiftPreferenceViolations d = prefViolationsSpec d) ∧
    countShiftPreferenceViolations (getWorkerShifts eveningSchedA) = 7 := by
  refine ⟨fun d => ?_, by decide⟩
  rw [countShiftPreference_eq, prefViolationsSpec]
  congr 1
  congr 1
  funext q
  rw [show (List.replicate (shiftsPerWeek / shiftPerDay) q.2).flatten
      = tiledMask q.2 from rfl,
    zip_filter_length]

/-- C9: for a fixed valid roster, cost is monotone in the construction
penalty: with positive hard total, a strictly larger penalty gives a strictly
larger cost; with hard total 0, the cost does not depend on the penalty. -/
theorem spec_c9_penalty_monotonicity (s : List Nat) (p1 p2 : Int)
    (hlen : s.length = schedLen) :
    (0 < hardTotal s → p1 < p2 →
      ∃ c1 c2 : Int, getCost ⟨p1⟩ s = Except.ok c1 ∧
        getCost ⟨p2⟩ s = Except.ok c2 ∧ c1 < c2) ∧
    (hardTotal s = 0 → getCost ⟨p1⟩ s = getCost ⟨p2⟩ s) := by
  constructor
  · intro hh hp
    refine ⟨_, _, cost_formula ⟨p1⟩ s hlen, cost_formula ⟨p2⟩ s hlen, ?_⟩
    have hc : (0 : Int) < ↑(hardTotal s) := by exact_mod_cast hh
    exact add_lt_add_right (mul_lt_mul_of_pos_right hp hc) _
  · intro hz
    rw [cost_formula ⟨p1⟩ s hlen, cost_formula ⟨p2⟩ s hlen, hz]
    simp

/-- Witness for C9 at the all-zero roster (hard total 35 > 0) with penalties
1 < 2. -/
theorem spec_c9_witness :
    ∃ c1 c2 : Int, getCost ⟨1⟩ zeroSchedule = Except.ok c1 ∧
      getCost ⟨2⟩ zeroSchedule = Except.ok c2 ∧ c1 < c2 :=
  (spec_c9_penalty_monotonicity zeroSchedule 1 2 (by decide)).1
    (by decide) (by decide)

/-- C10: on a valid binary roster every violation counter is nonnegative, and
the cost is nonnegative whenever the penalty is nonnegative. -/
theorem spec_c10_nonnegative_cost (p : SchedulingProblem) (s : List Nat)
    (hp : 0 ≤ p.hardConstraintPenalty) (hlen : s.length = schedLen)
    (_hbin : ∀ x ∈ s, x = 0 ∨ x = 1) :
    (0 : Int) ≤ ↑(countConsecutiveShiftViolations (getWorkerShifts s)) ∧
    (0 : Int) ≤ ↑((countShiftsPerWeekViolations (getWorkerShifts s)).2) ∧
    (0 : Int) ≤ ↑((countWorkersPerShiftViolations (getWorkerShifts s)).2) ∧
    (0 : Int) ≤ ↑(countShiftPreferenceViolations (getWorkerShifts s)) ∧
    (0 : Int) ≤ ↑(countCompetenceViolations (getWorkerShifts s)) ∧
    ∃ c : Int, getCost p s = Except.ok c ∧ 0 ≤ c := by
  refine ⟨Int.natCast_nonneg _, Int.natCast_nonneg _, Int.natCast_nonneg _,
    Int.natCast_nonneg _, Int.natCast_nonneg _,
    ⟨_, cost_formula p s hlen, ?_⟩⟩
  exact add_nonneg (mul_nonneg hp (Int.natCast_nonneg _)) (Int.natCast_nonneg _)

/-- Witness for C10 at the all-zero roster with penalty 10. -/
theorem spec_c10_witness :
    (0 : Int) ≤ ↑(countConsecutiveShiftViolations (getWorkerShifts zeroSchedule)) ∧
    (0 : Int) ≤ ↑((countShiftsPerWeekViolations (getWorkerShifts zeroSchedule)).2) ∧
    (0 : Int) ≤ ↑((countWorkersPerShiftViolations (getWorkerShifts zeroSchedule)).2) ∧
    (0 : Int) ≤ ↑(countShiftPreferenceViolations (getWorkerShifts zeroSchedule)) ∧
    (0 : Int) ≤ ↑(countCompetenceViolations (getWorkerShifts zeroSchedule)) ∧
    ∃ c : Int, getCost ⟨10⟩ zeroSchedule = Except.ok c ∧ 0 ≤ c :=
  spec_c10_nonnegative_cost ⟨10⟩ zeroSchedule (by decide) (by decide) (by decide)

end Workers
